import Mathlib

/-!
# Verification of the advanced momentum rotation strategy

Shallow embedding of `src/strategy/advanced_momentum_rotation.py`
(`AdvancedMomentumRotationStrategy`).  Prices and cash are modelled as
rationals (`ℚ`), dates as integers (ordinal calendar days, so that the
Python `(d1 - d2).days` becomes integer subtraction), Python dicts as
association lists in insertion order, and the per-bar strategy methods as
pure functions on an explicit strategy-state record.  The backtrader
broker is modelled by the read-only `Broker` record (cash plus
positions); the strategy never mutates it directly, it only emits orders.
-/

/-- Association-list lookup, mirroring Python `dict[key]` /
`dict.get(key)` reads (first matching key wins; insertion order is kept
by construction). -/
def lookupQ {α : Type} (s : String) : List (String × α) → Option α
  | [] => none
  | (k, v) :: xs => if k = s then some v else lookupQ s xs

/-- Association-list update, mirroring Python `dict[key] = value`: the
first matching key is overwritten in place, a missing key is appended at
the end (Python dicts preserve insertion order). -/
def aupdate {α : Type} (s : String) (v : α) : List (String × α) → List (String × α)
  | [] => [(s, v)]
  | (k, w) :: xs => if k = s then (k, v) :: xs else (k, w) :: aupdate s v xs

/-- Python `abs(q)`. -/
def pyAbs (q : ℚ) : ℚ := if q < 0 then -q else q

/-- Python `int(q)` on a float/rational: truncation toward zero. -/
def pyInt (q : ℚ) : Int := if q < 0 then -Int.floor (-q) else Int.floor q

/-- The strategy's `params` tuple (lines 30–49 of the source).
`initial_capital` is *not* a strategy parameter in the source; it is an
argument of the backtest runner (`run_backtest`). -/
structure Params where
  lookback_period : Int
  top_n_holdings : Int
  position_size : ℚ
  rebalance_freq : String
  min_momentum_threshold : ℚ
  max_position_size : ℚ
  stop_loss_pct : ℚ
  trailing_stop_pct : ℚ
  transaction_cost : ℚ
  min_cash_buffer : ℚ
  target_symbols : List String
deriving DecidableEq

/-- The default parameter values from the source's `params` tuple. -/
def defaultParams : Params where
  lookback_period := 20
  top_n_holdings := 3
  position_size := 19/20
  rebalance_freq := "weekly"
  min_momentum_threshold := 0
  max_position_size := 2/5
  stop_loss_pct := -1/10
  trailing_stop_pct := 1/20
  transaction_cost := 1/1000
  min_cash_buffer := 1/20
  target_symbols := []

/-- `_validate_parameters` (source lines 78–93): the exact five checks
performed at construction, in source order; the first failing check
raises (`Except.error`).  No other field is examined. -/
def validateParameters (p : Params) : Except String Unit :=
  if p.top_n_holdings ≤ 0 then .error ("top_n_holdings must be positive")
  else if ¬ (0 < p.position_size ∧ p.position_size ≤ 1) then
    .error ("position_size must be between 0 and 1")
  else if ¬ (0 < p.max_position_size ∧ p.max_position_size ≤ 1) then
    .error ("max_position_size must be between 0 and 1")
  else if ¬ (p.rebalance_freq = "daily" ∨ p.rebalance_freq = "weekly" ∨
      p.rebalance_freq = "monthly") then
    .error ("rebalance_freq must be daily, weekly, or monthly")
  else if p.lookback_period ≤ 0 then .error ("lookback_period must be positive")
  else .ok ()

/-- A backtrader data feed as seen by the strategy at one bar: the bars
loaded so far, most recent first, so `close[0]` is the head and
`close[-k]` is entry `k`.  An out-of-range backward index is `none`,
modelling the `IndexError` that the scoring code catches. -/
structure DataFeed where
  name : String
  closes : List ℚ
deriving DecidableEq

/-- `data.close[0]`: the current bar's close. -/
def close0 (d : DataFeed) : ℚ := d.closes.headD 0

/-- A broker position (`self.getposition(data)`): signed share count and
the broker-maintained entry price. -/
structure Position where
  size : Int
  price : ℚ
deriving DecidableEq

/-- The broker state read by the strategy (`self.broker`): cash plus the
per-symbol positions. -/
structure Broker where
  cash : ℚ
  positions : List (String × Position)
deriving DecidableEq

/-- `self.getposition(data)` for a symbol: the stored position, or a
flat one (size 0). -/
def getPosition (b : Broker) (s : String) : Position :=
  (lookupQ s b.positions).getD ⟨0, 0⟩

/-- `self.getdatabyname(symbol)`: the first feed with the given name
(the strategy only calls it for names that exist). -/
def getDataByName (datas : List DataFeed) (s : String) : DataFeed :=
  match datas with
  | [] => ⟨s, []⟩
  | d :: rest => if d.name = s then d else getDataByName rest s

/-- `self.broker.getvalue()`: cash plus the value of every position at
the current close. -/
def portfolioValue (b : Broker) (datas : List DataFeed) : ℚ :=
  datas.foldl (fun acc d => acc + ((getPosition b d.name).size : ℚ) * close0 d) b.cash

/-- An order submitted through `self.buy` / `self.sell`. -/
structure Order where
  action : String
  symbol : String
  size : Int
deriving DecidableEq

/-- One entry of `self.trade_history` (source lines 286–292): the
fields actually appended are date, symbol, action, shares and price —
there is no cost field. -/
structure TradeRecord where
  date : Int
  symbol : String
  action : String
  shares : Int
  price : ℚ
deriving DecidableEq

/-- One entry of `self.rebalance_history` (source lines 218–223). -/
structure RebalanceRecord where
  date : Int
  selected_assets : List String
  momentum_scores : List (String × ℚ)
  target_positions : List (String × ℚ)
deriving DecidableEq

/-- The mutable strategy-instance state (source `__init__`,
lines 51–66), minus the logger. -/
structure StrategyState where
  current_positions : List (String × ℚ)
  momentum_scores : List (String × ℚ)
  last_rebalance_date : Option Int
  pending_orders : List Order
  trailing_stops : List (String × ℚ)
  portfolio_values : List (Int × ℚ × ℚ)
  trade_history : List TradeRecord
  rebalance_history : List RebalanceRecord
deriving DecidableEq

/-- The freshly initialised strategy state. -/
def initialState : StrategyState where
  current_positions := []
  momentum_scores := []
  last_rebalance_date := none
  pending_orders := []
  trailing_stops := []
  portfolio_values := []
  trade_history := []
  rebalance_history := []

/-- `_should_rebalance` (source lines 117–131), with dates as ordinal
days so `(current_date - last_rebalance_date).days` is subtraction. -/
def shouldRebalance (p : Params) (last : Option Int) (current : Int) : Bool :=
  match last with
  | none => true
  | some d =>
    let days := current - d
    if p.rebalance_freq = "daily" then days ≥ 1
    else if p.rebalance_freq = "weekly" then days ≥ 7
    else if p.rebalance_freq = "monthly" then days ≥ 30
    else false

/-- The per-asset body of `_calculate_momentum_scores` (source lines
144–159): skip when fewer than `lookback_period` bars are loaded,
otherwise read `close[0]` and `close[-lookback_period]` and return
`current/past - 1`; an out-of-range backward read (`IndexError`) or a
zero past close (`ZeroDivisionError`) yields `none` — the caught
exception. -/
def momentumOf (p : Params) (d : DataFeed) : Option ℚ :=
  if (d.closes.length : Int) < p.lookback_period then none
  else
    match d.closes.get? 0, d.closes.get? p.lookback_period.toNat with
    | some cur, some past => if past = 0 then none else some (cur / past - 1)
    | _, _ => none

/-- `_calculate_momentum_scores` (source lines 133–161): iterate the
data feeds in order, skip symbols outside a non-empty `target_symbols`,
skip assets whose momentum cannot be computed, and record the score only
when it is at least `min_momentum_threshold`. -/
def calcMomentumScores (p : Params) (datas : List DataFeed) : List (String × ℚ) :=
  datas.filterMap (fun d =>
    if p.target_symbols ≠ [] ∧ d.name ∉ p.target_symbols then none
    else
      match momentumOf p d with
      | some m => if p.min_momentum_threshold ≤ m then some (d.name, m) else none
      | none => none)

/-- The comparison used by `sorted(..., key=lambda x: x[1],
reverse=True)`: descending by score; Python's sort is a stable merge
sort, which `List.mergeSort` also is. -/
def scoreLe (a b : String × ℚ) : Bool := b.2 ≤ a.2

/-- The stable descending sort of `_select_top_assets` (source line
169). -/
def sortedDesc (l : List (String × ℚ)) : List (String × ℚ) :=
  l.mergeSort scoreLe

/-- `_select_top_assets` (source lines 163–174): empty input gives an
empty selection, otherwise the first `top_n_holdings` symbols of the
stable descending sort. -/
def selectTopAssets (p : Params) (scores : List (String × ℚ)) : List String :=
  if scores = [] then []
  else ((sortedDesc scores).take p.top_n_holdings.toNat).map Prod.fst

/-- Modelled from the spec: the §4.2 selector order, "sort candidates by
score descending; break ties by symbol ascending".  Used only to compare
the source's selector against the spec's stated tie-break. -/
def specLe (a b : String × ℚ) : Bool := b.2 < a.2 ∨ (a.2 = b.2 ∧ a.1 ≤ b.1)

/-- Modelled from the spec: selection under the §4.2 order (score
descending, ties by symbol ascending). -/
def selectTopAssetsSpecOrdered (p : Params) (scores : List (String × ℚ)) : List String :=
  if scores = [] then []
  else ((scores.mergeSort specLe).take p.top_n_holdings.toNat).map Prod.fst

/-- `_calculate_target_positions` (source lines 176–194): empty
selection gives an empty target map; otherwise every selected asset gets
`min(position_size / n, max_position_size)`, with no renormalisation. -/
def calcTargetPositions (p : Params) (selected : List String) : List (String × ℚ) :=
  if selected = [] then []
  else
    let equal_weight := p.position_size / (selected.length : ℚ)
    let sz := min equal_weight p.max_position_size
    selected.map (fun a => (a, sz))

/-- The trade list built by `_execute_trades` (source lines 229–272)
before the submission loop: first a full sell for every held symbol
absent from the targets, then, for every target symbol in dict order, a
buy/sell sized by `int(trade_value / current_price)` whenever the weight
difference exceeds the hard-coded 1% materiality threshold.  Each entry
is `(action, symbol, shares)` with `shares > 0`.  No parameter of the
strategy — in particular neither `cash` nor `min_cash_buffer` — is
consulted. -/
def computeTrades (b : Broker) (datas : List DataFeed) (targets : List (String × ℚ)) :
    List (String × String × Int) :=
  let pv := portfolioValue b datas
  let current_positions := datas.filterMap (fun d =>
    let pos := getPosition b d.name
    if pos.size ≠ 0 then some (d.name, (pos.size : ℚ) * close0 d / pv) else none)
  let sells := current_positions.filterMap (fun sc =>
    if lookupQ sc.1 targets = none then
      let pos := getPosition b sc.1
      if pos.size > 0 then some ("sell", sc.1, pos.size) else none
    else none)
  let adjusts := targets.filterMap (fun st =>
    let cw := (lookupQ st.1 current_positions).getD 0
    let wd := st.2 - cw
    if 1/100 < pyAbs wd then
      let price := close0 (getDataByName datas st.1)
      let trade_value := st.2 * pv - cw * pv
      let shares := pyInt (trade_value / price)
      if 0 < shares then some ("buy", st.1, shares)
      else if shares < 0 then some ("sell", st.1, -shares)
      else none
    else none)
  sells ++ adjusts

/-- The order object submitted for one computed trade. -/
def tradeOrder (t : String × String × Int) : Order := ⟨t.1, t.2.1, t.2.2⟩

/-- The `trade_history` entry appended for one computed trade (source
lines 286–292): date, symbol, action, shares, and the current close. -/
def recordOf (datas : List DataFeed) (dt : Int) (t : String × String × Int) : TradeRecord :=
  ⟨dt, t.2.1, t.1, t.2.2, close0 (getDataByName datas t.2.1)⟩

/-- The submission loop of `_execute_trades` (source lines 274–292):
every computed trade is submitted (appended to `pending_orders`) and one
`trade_history` entry is appended for it. -/
def executeTrades (b : Broker) (datas : List DataFeed) (dt : Int)
    (targets : List (String × ℚ)) (st : StrategyState) : StrategyState :=
  (computeTrades b datas targets).foldl
    (fun s t =>
      { s with
        pending_orders := s.pending_orders ++ [tradeOrder t]
        trade_history := s.trade_history ++ [recordOf datas dt t] }) st

/-- The per-feed body of `_check_risk_controls` (source lines 296–328):
for a long position, first the stop-loss check (may submit a full-size
sell), then the trailing-stop bookkeeping — initialise the trailing
price on first sight, otherwise ratchet it up and check the trailing
return (may submit a second full-size sell).  Nothing is ever removed
from `trailing_stops`, and `trade_history` is not touched. -/
def riskStepOne (p : Params) (b : Broker) (st : StrategyState) (d : DataFeed) :
    StrategyState :=
  let pos := getPosition b d.name
  if 0 < pos.size then
    let current_price := close0 d
    let entry_price := pos.price
    let current_return := current_price / entry_price - 1
    let st1 :=
      if current_return ≤ p.stop_loss_pct then
        { st with pending_orders := st.pending_orders ++ [⟨"sell", d.name, pos.size⟩] }
      else st
    match lookupQ d.name st1.trailing_stops with
    | none => { st1 with trailing_stops := aupdate d.name current_price st1.trailing_stops }
    | some ts =>
      let ts1 := if ts < current_price then current_price else ts
      let st2 := { st1 with trailing_stops := aupdate d.name ts1 st1.trailing_stops }
      let trailing_return := current_price / ts1 - 1
      if trailing_return ≤ -p.trailing_stop_pct then
        { st2 with pending_orders := st2.pending_orders ++ [⟨"sell", d.name, pos.size⟩] }
      else st2
  else st

/-- `_check_risk_controls` (source lines 294–328): the risk step applied
to every data feed in order. -/
def checkRiskControls (p : Params) (b : Broker) (datas : List DataFeed)
    (st : StrategyState) : StrategyState :=
  datas.foldl (riskStepOne p b) st

/-- `_execute_rebalance` (source lines 196–227): score, select, size,
trade, then update `last_rebalance_date` and `current_positions`
unconditionally and append one `rebalance_history` record holding the
date, the selected assets, the momentum scores and the target
positions. -/
def executeRebalance (p : Params) (b : Broker) (datas : List DataFeed) (dt : Int)
    (st : StrategyState) : StrategyState :=
  let scores := calcMomentumScores p datas
  let selected := selectTopAssets p scores
  let targets := calcTargetPositions p selected
  let st1 := executeTrades b datas dt targets { st with momentum_scores := scores }
  { st1 with
    last_rebalance_date := some dt
    current_positions := targets
    rebalance_history := st1.rebalance_history ++ [⟨dt, selected, scores, targets⟩] }

/-- The snapshot appended at the top of `next` (source lines 99–104):
date, `broker.getvalue()`, `broker.getcash()`. -/
def snap (b : Broker) (datas : List DataFeed) (dt : Int) (st : StrategyState) :
    StrategyState :=
  { st with portfolio_values := st.portfolio_values ++ [(dt, portfolioValue b datas, b.cash)] }

/-- `next` (source lines 95–115): append the value snapshot; return
early if any order is pending; otherwise run the risk controls and then,
if the scheduler fires, the rebalance. -/
def nextBar (p : Params) (b : Broker) (datas : List DataFeed) (dt : Int)
    (st : StrategyState) : StrategyState :=
  let st0 := snap b datas dt st
  if st0.pending_orders = [] then
    let st1 := checkRiskControls p b datas st0
    if shouldRebalance p st1.last_rebalance_date dt then
      executeRebalance p b datas dt st1
    else st1
  else st0

/-- A configuration violating four of the §3 spec domains
(`stop_loss_pct ≥ 0`, `trailing_stop_pct ≤ 0`, `transaction_cost < 0`,
`min_cash_buffer ∉ [0,1)`) while satisfying every check the code
performs. -/
def badParams : Params :=
  { defaultParams with
    stop_loss_pct := 1/10
    trailing_stop_pct := -1/20
    transaction_cost := -1
    min_cash_buffer := 2 }

/-! ## General lemmas about the embedding -/

theorem foldl_add_eq (f : DataFeed → ℚ) :
    ∀ (l : List DataFeed) (init : ℚ),
      l.foldl (fun acc d => acc + f d) init = init + (l.map f).sum
  | [], init => by simp
  | d :: rest, init => by
    simp only [List.foldl_cons, List.map_cons, List.sum_cons]
    rw [foldl_add_eq f rest (init + f d)]
    ring

theorem lookupQ_map_const {c : ℚ} :
    ∀ {sel : List String} {s : String}, s ∈ sel →
      lookupQ s (sel.map (fun a => (a, c))) = some c
  | [], _, hs => by cases hs
  | a :: rest, s, hs => by
    simp only [List.map_cons, lookupQ]
    by_cases h : a = s
    · simp [h]
    · have : s ∈ rest := by
        rcases List.mem_cons.mp hs with h1 | h1
        · exact absurd h1.symm h
        · exact h1
      simp [h, lookupQ_map_const this]

/-! ## C5: momentum score formula and eligibility -/

/-- C5 (confirmed).  An asset whose feed holds at least
`lookback_period + 1` bars (so `close[0]` and `close[-lookback_period]`
both exist) and whose past close is nonzero gets the momentum score
`close[t] / close[t - lookback_period] - 1` exactly; an asset with at
most `lookback_period` bars in total gets no score at all (the length
guard or the caught `IndexError`), and no error is surfaced — the
scoring function is total. -/
theorem c5_momentum_score_exact (p : Params) (d : DataFeed) (cur past : ℚ)
    (h1 : 0 < p.lookback_period)
    (hc : d.closes.get? 0 = some cur)
    (hp : d.closes.get? p.lookback_period.toNat = some past)
    (hz : past ≠ 0) :
    momentumOf p d = some (cur / past - 1) ∧
    ∀ d' : DataFeed, (d'.closes.length : Int) ≤ p.lookback_period → momentumOf p d' = none := by
  constructor
  · obtain ⟨hlt, -⟩ := List.get?_eq_some.mp hp
    have htn : (p.lookback_period.toNat : Int) = p.lookback_period :=
      Int.toNat_of_nonneg h1.le
    have hnl : ¬ ((d.closes.length : Int) < p.lookback_period) := by
      omega
    rw [momentumOf, if_neg hnl, hc, hp]
    exact if_neg hz
  · intro d' hle
    by_cases hcase : (d'.closes.length : Int) < p.lookback_period
    · rw [momentumOf, if_pos hcase]
    · have htn : (p.lookback_period.toNat : Int) = p.lookback_period :=
        Int.toNat_of_nonneg h1.le
      have hlen : d'.closes.length ≤ p.lookback_period.toNat := by omega
      have hnone : d'.closes.get? p.lookback_period.toNat = none :=
        List.get?_eq_none.mpr hlen
      cases h0 : d'.closes.get? 0 <;>
        · unfold momentumOf
          rw [if_neg hcase, hnone, h0]

/-- Witness for C5: with `lookback_period = 1`, the feed `[3, 2]` (most
recent first) scores `3/2 - 1`, and a one-bar feed is ineligible. -/
theorem c5_momentum_score_witness :
    momentumOf { defaultParams with lookback_period := 1 } ⟨"A", [3, 2]⟩ = some (3 / 2 - 1) ∧
    momentumOf { defaultParams with lookback_period := 1 } ⟨"S", [4]⟩ = none :=
  ⟨(c5_momentum_score_exact { defaultParams with lookback_period := 1 } ⟨"A", [3, 2]⟩ 3 2
      (by norm_num) rfl rfl (by norm_num)).1,
   (c5_momentum_score_exact { defaultParams with lookback_period := 1 } ⟨"A", [3, 2]⟩ 3 2
      (by norm_num) rfl rfl (by norm_num)).2 ⟨"S", [4]⟩ (by norm_num)⟩

/-! ## C6: below-threshold scores are dropped, not recorded -/

/-- C6 counterexample (closed): with `lookback_period = 1` and the
default threshold `0`, the asset `A` has computable momentum `-1/2`,
which is below the threshold; the rebalance executed on that bar appends
an audit record whose `momentum_scores` is empty — the below-threshold
score is *not* recorded in the audit trail, contradicting the claim. -/
theorem c6_below_threshold_not_recorded :
    momentumOf { defaultParams with lookback_period := 1 } ⟨"A", [1, 2]⟩ = some (-(1/2)) ∧
    (-(1/2) : ℚ) < ({ defaultParams with lookback_period := 1 } : Params).min_momentum_threshold ∧
    (executeRebalance { defaultParams with lookback_period := 1 } ⟨1000, []⟩ [⟨"A", [1, 2]⟩] 5
        initialState).rebalance_history = [⟨5, [], [], []⟩] := by
  refine ⟨?_, by norm_num [defaultParams], ?_⟩
  · simp [momentumOf, defaultParams, List.get?]
    norm_num
  · simp [executeRebalance, calcMomentumScores, momentumOf, selectTopAssets,
      calcTargetPositions, computeTrades, executeTrades, portfolioValue, getPosition, lookupQ,
      close0, getDataByName, initialState, defaultParams, List.filterMap, List.foldl,
      List.get?, sortedDesc, List.mergeSort, List.merge, scoreLe, pyAbs, pyInt,
      tradeOrder, recordOf]
    try norm_num
    try simp [List.filterMap, List.foldl]
    try norm_num

/-- C6 amended: an asset whose momentum is below
`min_momentum_threshold` is excluded from candidacy *and* its score is
dropped entirely — `momentum_scores` (hence the rebalance audit record
copied from it) only ever holds scores at or above the threshold. -/
theorem c6_scores_filtered_by_threshold (p : Params) (datas : List DataFeed) (s : String) (m : ℚ)
    (h : (s, m) ∈ calcMomentumScores p datas) :
    p.min_momentum_threshold ≤ m := by
  unfold calcMomentumScores at h
  rw [List.mem_filterMap] at h
  obtain ⟨d, -, hd⟩ := h
  split at hd
  · cases hd
  · split at hd
    · split at hd
      · rename_i hcond
        injection hd with h2
        injection h2 with h3 h4
        exact h4 ▸ hcond
      · cases hd
    · cases hd

/-- Witness for C6's amended theorem: the recorded score `1/2` of asset
`A` is above the default threshold `0`. -/
theorem c6_scores_filtered_witness :
    ({ defaultParams with lookback_period := 1 } : Params).min_momentum_threshold ≤ 1/2 :=
  c6_scores_filtered_by_threshold { defaultParams with lookback_period := 1 }
    [⟨"A", [3, 2]⟩] "A" (1/2)
    (by simp [calcMomentumScores, momentumOf, defaultParams, List.filterMap, List.get?]
        norm_num)

/-! ## C10: scoring is total and exclusion is local -/

/-- C10 (confirmed).  Momentum scoring never surfaces an error: an asset
whose momentum cannot be computed (zero past close — the caught
`ZeroDivisionError` — or a series one bar too short for the backward
index — the caught `IndexError`) is silently dropped from that date's
scores, and every other asset's score is exactly as if the offending
asset were absent. -/
theorem c10_momentum_total (p : Params) (pre post : List DataFeed) (d : DataFeed)
    (h : momentumOf p d = none) :
    calcMomentumScores p (pre ++ d :: post) = calcMomentumScores p (pre ++ post) := by
  unfold calcMomentumScores
  rw [List.filterMap_append, List.filterMap_append, List.filterMap_cons]
  simp [h]

/-- Witness for C10: a zero past close (`Z`) and a one-bar-short series
(`S`) are both dropped while `G` is still scored. -/
theorem c10_momentum_total_witness :
    calcMomentumScores { defaultParams with lookback_period := 1 }
        [⟨"G", [3, 2]⟩, ⟨"Z", [5, 0]⟩] =
      calcMomentumScores { defaultParams with lookback_period := 1 } [⟨"G", [3, 2]⟩] ∧
    calcMomentumScores { defaultParams with lookback_period := 1 }
        [⟨"G", [3, 2]⟩, ⟨"S", [4]⟩] =
      calcMomentumScores { defaultParams with lookback_period := 1 } [⟨"G", [3, 2]⟩] :=
  ⟨c10_momentum_total { defaultParams with lookback_period := 1 } [⟨"G", [3, 2]⟩] [] ⟨"Z", [5, 0]⟩
      (by simp [momentumOf, defaultParams, List.get?]),
   c10_momentum_total { defaultParams with lookback_period := 1 } [⟨"G", [3, 2]⟩] [] ⟨"S", [4]⟩
      (by simp [momentumOf, defaultParams, List.get?])⟩

/-! ## C7: selector order -/

/-- C7 counterexample (closed): on the tied scores `[("B", 1/2),
("A", 1/2)]` with `top_n_holdings = 1` the source selector returns
`["B"]` (Python's stable sort keeps dict-insertion order among ties),
while the spec's order (ties broken by symbol ascending) returns
`["A"]` — the outputs differ, so ties are not broken by symbol and the
result depends on input ordering. -/
theorem c7_tie_break_insertion_order :
    selectTopAssets { defaultParams with top_n_holdings := 1 } [("B", 1/2), ("A", 1/2)] =
      ["B"] ∧
    selectTopAssetsSpecOrdered { defaultParams with top_n_holdings := 1 }
      [("B", 1/2), ("A", 1/2)] = ["A"] ∧
    selectTopAssets { defaultParams with top_n_holdings := 1 } [("B", 1/2), ("A", 1/2)] ≠
      selectTopAssetsSpecOrdered { defaultParams with top_n_holdings := 1 }
        [("B", 1/2), ("A", 1/2)] := by
  have hb : selectTopAssets { defaultParams with top_n_holdings := 1 }
      [("B", 1/2), ("A", 1/2)] = ["B"] := by
    simp [selectTopAssets, sortedDesc, scoreLe, List.mergeSort, List.merge, defaultParams]
  have ha : selectTopAssetsSpecOrdered { defaultParams with top_n_holdings := 1 }
      [("B", 1/2), ("A", 1/2)] = ["A"] := by
    simp [selectTopAssetsSpecOrdered, specLe, List.mergeSort, List.merge, defaultParams,
      show ¬((['B'] : List Char) ≤ ['A']) by decide]
  exact ⟨hb, ha, by rw [hb, ha]; decide⟩

/-- C7 amended: the selector takes the first `top_n_holdings` symbols
of the *stable* sort of the scores by value descending — ties keep the
input (dict-insertion) order, not symbol order, so the output depends on
the feed ordering.  The sort is a permutation of the input, is sorted
descending by score, the output length is `min top_n |scores|` (all
candidates when fewer than `top_n` qualify, empty when none do), and
stability holds: any in-order pair of the input stays in order. -/
theorem c7_selector_stable_desc (p : Params) (scores : List (String × ℚ)) :
    selectTopAssets p scores =
      ((sortedDesc scores).take p.top_n_holdings.toNat).map Prod.fst ∧
    List.Perm (sortedDesc scores) scores ∧
    List.Pairwise (fun a b : String × ℚ => b.2 ≤ a.2) (sortedDesc scores) ∧
    (selectTopAssets p scores).length = min p.top_n_holdings.toNat scores.length ∧
    ∀ x y : String × ℚ, List.Sublist [x, y] scores → y.2 ≤ x.2 →
      List.Sublist [x, y] (sortedDesc scores) := by
  have htrans : ∀ a b c : String × ℚ, scoreLe a b → scoreLe b c → scoreLe a c := by
    intro a b c hab hbc
    simp only [scoreLe, decide_eq_true_eq] at *
    exact le_trans hbc hab
  have htotal : ∀ a b : String × ℚ, scoreLe a b || scoreLe b a := by
    intro a b
    simp only [scoreLe, Bool.or_eq_true, decide_eq_true_eq]
    exact le_total b.2 a.2
  refine ⟨?_, List.mergeSort_perm scores scoreLe, ?_, ?_, ?_⟩
  · by_cases h : scores = []
    · simp [selectTopAssets, h, sortedDesc]
    · simp [selectTopAssets, h]
  · have hs := List.sorted_mergeSort htrans htotal scores
    exact hs.imp (fun h => by simpa [scoreLe] using h)
  · by_cases h : scores = []
    · simp [selectTopAssets, h]
    · simp [selectTopAssets, h, sortedDesc]
  · intro x y hsub hle
    exact List.pair_sublist_mergeSort htrans htotal
      (by simpa [scoreLe] using hle) hsub

/-- Witness for C7's amended theorem: the tied pair keeps its input
order through the sort. -/
theorem c7_selector_stable_witness :
    List.Sublist [(("B" : String), (1 : ℚ)), ("A", 1)] (sortedDesc [("B", 1), ("A", 1)]) :=
  (c7_selector_stable_desc defaultParams [("B", 1), ("A", 1)]).2.2.2.2 ("B", 1) ("A", 1)
    (List.Sublist.refl _) le_rfl

/-! ## C8: position sizing -/

/-- C8 (confirmed).  An empty selection yields empty target weights
(100% cash); a non-empty selection gives every selected symbol the
weight `min(position_size / n, max_position_size)`, with no
renormalisation after clamping. -/
theorem c8_position_sizing (p : Params) (sel : List String) (s : String) (hs : s ∈ sel) :
    lookupQ s (calcTargetPositions p sel) =
      some (min (p.position_size / (sel.length : ℚ)) p.max_position_size) ∧
    calcTargetPositions p [] = [] := by
  constructor
  · have hne : sel ≠ [] := by rintro rfl; cases hs
    unfold calcTargetPositions
    rw [if_neg hne]
    exact lookupQ_map_const hs
  · rfl

/-- Witness for C8: two selected assets each get
`min(position_size / 2, max_position_size)`. -/
theorem c8_position_sizing_witness :
    lookupQ ("A") (calcTargetPositions defaultParams ["A", "B"]) =
      some (min (defaultParams.position_size / (((["A", "B"] : List String).length : ℕ) : ℚ))
        defaultParams.max_position_size) ∧
    calcTargetPositions defaultParams [] = [] :=
  c8_position_sizing defaultParams ["A", "B"] "A" (by simp)

/-! ## C9: parameter validation -/

/-- C9 counterexample (closed): `badParams` violates the spec's domains
for `stop_loss_pct`, `trailing_stop_pct`, `transaction_cost` and
`min_cash_buffer`, yet `_validate_parameters` accepts it — those fields
(and `initial_capital`, which is not even a constructor parameter) are
never checked. -/
theorem c9_unchecked_fields_accepted :
    validateParameters badParams = Except.ok () ∧
    0 ≤ badParams.stop_loss_pct ∧
    badParams.trailing_stop_pct ≤ 0 ∧
    badParams.transaction_cost < 0 ∧
    ¬ (0 ≤ badParams.min_cash_buffer ∧ badParams.min_cash_buffer < 1) := by
  refine ⟨?_, by norm_num [badParams, defaultParams], by norm_num [badParams, defaultParams],
    by norm_num [badParams, defaultParams], by norm_num [badParams, defaultParams]⟩
  simp [validateParameters, badParams, defaultParams]
  norm_num

/-- C9 amended: construction-time validation checks exactly five
fields — `top_n_holdings > 0`, `position_size ∈ (0,1]`,
`max_position_size ∈ (0,1]`, `rebalance_freq ∈ {daily, weekly,
monthly}`, `lookback_period > 0`; `stop_loss_pct`, `trailing_stop_pct`,
`transaction_cost` and `min_cash_buffer` are accepted unchecked, and
`initial_capital` is a runner argument, not a validated constructor
field. -/
theorem c9_validation_exact (p : Params) :
    validateParameters p = Except.ok () ↔
      (0 < p.top_n_holdings ∧ (0 < p.position_size ∧ p.position_size ≤ 1) ∧
       (0 < p.max_position_size ∧ p.max_position_size ≤ 1) ∧
       (p.rebalance_freq = "daily" ∨ p.rebalance_freq = "weekly" ∨
         p.rebalance_freq = "monthly") ∧
       0 < p.lookback_period) := by
  constructor
  · intro hok
    unfold validateParameters at hok
    split_ifs at hok with h1 h2 h3 h4 h5
    exact ⟨by omega, by assumption, by assumption, by assumption, by omega⟩
  · rintro ⟨ha, hb, hc, hd, he⟩
    unfold validateParameters
    rw [if_neg (by omega), if_neg (not_not.mpr hb), if_neg (not_not.mpr hc),
      if_neg (not_not.mpr hd), if_neg (by omega)]

/-! ## Lemmas about the trade simulator and risk controller -/

theorem executeTrades_foldl (datas : List DataFeed) (dt : Int) :
    ∀ (ts : List (String × String × Int)) (st : StrategyState),
      ts.foldl
        (fun s t =>
          { s with
            pending_orders := s.pending_orders ++ [tradeOrder t]
            trade_history := s.trade_history ++ [recordOf datas dt t] }) st =
      { st with
        pending_orders := st.pending_orders ++ ts.map tradeOrder
        trade_history := st.trade_history ++ ts.map (recordOf datas dt) }
  | [], st => by simp
  | t :: rest, st => by
    simp only [List.foldl_cons, List.map_cons]
    rw [executeTrades_foldl datas dt rest]
    simp

theorem executeTrades_spec (b : Broker) (datas : List DataFeed) (dt : Int)
    (targets : List (String × ℚ)) (st : StrategyState) :
    executeTrades b datas dt targets st =
      { st with
        pending_orders := st.pending_orders ++ (computeTrades b datas targets).map tradeOrder
        trade_history :=
          st.trade_history ++ (computeTrades b datas targets).map (recordOf datas dt) } :=
  executeTrades_foldl datas dt (computeTrades b datas targets) st

theorem riskStepOne_fixed (p : Params) (b : Broker) (st : StrategyState) (d : DataFeed) :
    (riskStepOne p b st d).trade_history = st.trade_history ∧
    (riskStepOne p b st d).last_rebalance_date = st.last_rebalance_date ∧
    (riskStepOne p b st d).rebalance_history = st.rebalance_history := by
  refine ⟨?_, ?_, ?_⟩
  all_goals simp only [riskStepOne]
  all_goals repeat' split
  all_goals rfl

theorem checkRiskControls_history (p : Params) (b : Broker) :
    ∀ (datas : List DataFeed) (st : StrategyState),
      (checkRiskControls p b datas st).trade_history = st.trade_history
  | [], _ => rfl
  | d :: rest, st => by
    have h1 : checkRiskControls p b (d :: rest) st =
        checkRiskControls p b rest (riskStepOne p b st d) := rfl
    rw [h1, checkRiskControls_history p b rest (riskStepOne p b st d)]
    exact (riskStepOne_fixed p b st d).1

theorem checkRiskControls_last_date (p : Params) (b : Broker) :
    ∀ (datas : List DataFeed) (st : StrategyState),
      (checkRiskControls p b datas st).last_rebalance_date = st.last_rebalance_date
  | [], _ => rfl
  | d :: rest, st => by
    have h1 : checkRiskControls p b (d :: rest) st =
        checkRiskControls p b rest (riskStepOne p b st d) := rfl
    rw [h1, checkRiskControls_last_date p b rest (riskStepOne p b st d)]
    exact (riskStepOne_fixed p b st d).2.1

theorem aupdate_keys_mono {α : Type} (s k : String) (v : α) :
    ∀ l : List (String × α), s ∈ l.map Prod.fst → s ∈ (aupdate k v l).map Prod.fst
  | [], h => by cases h
  | (k1, v1) :: xs, h => by
    unfold aupdate
    by_cases hk : k1 = k
    · rw [if_pos hk]
      simpa using h
    · rw [if_neg hk]
      simp only [List.map_cons, List.mem_cons] at h ⊢
      rcases h with h | h
      · exact Or.inl h
      · exact Or.inr (aupdate_keys_mono s k v xs h)

theorem riskStepOne_trailing_mono (p : Params) (b : Broker) (st : StrategyState)
    (d : DataFeed) (s : String) (hs : s ∈ st.trailing_stops.map Prod.fst) :
    s ∈ (riskStepOne p b st d).trailing_stops.map Prod.fst := by
  simp only [riskStepOne]
  repeat' split
  all_goals first
    | exact hs
    | exact aupdate_keys_mono s _ _ _ hs

theorem riskStepOne_sells_only (p : Params) (b : Broker) (st : StrategyState) (d : DataFeed) :
    ∀ o ∈ (riskStepOne p b st d).pending_orders,
      o ∈ st.pending_orders ∨ o.action = "sell" := by
  intro o ho
  simp only [riskStepOne] at ho
  repeat' split at ho
  all_goals first
    | exact Or.inl ho
    | (simp only [List.mem_append, List.mem_singleton] at ho
       rcases ho with ho | rfl
       · exact Or.inl ho
       · exact Or.inr rfl)
    | (simp only [List.mem_append, List.mem_singleton] at ho
       rcases ho with (ho | rfl) | rfl
       · exact Or.inl ho
       · exact Or.inr rfl
       · exact Or.inr rfl)

theorem checkRiskControls_trailing_mono (p : Params) (b : Broker) :
    ∀ (datas : List DataFeed) (st : StrategyState) (s : String),
      s ∈ st.trailing_stops.map Prod.fst →
      s ∈ (checkRiskControls p b datas st).trailing_stops.map Prod.fst
  | [], _, _, hs => hs
  | d :: rest, st, s, hs => by
    have h1 : checkRiskControls p b (d :: rest) st =
        checkRiskControls p b rest (riskStepOne p b st d) := rfl
    rw [h1]
    exact checkRiskControls_trailing_mono p b rest (riskStepOne p b st d) s
      (riskStepOne_trailing_mono p b st d s hs)

theorem checkRiskControls_orders (p : Params) (b : Broker) :
    ∀ (datas : List DataFeed) (st : StrategyState),
      ∀ o ∈ (checkRiskControls p b datas st).pending_orders,
        o ∈ st.pending_orders ∨ o.action = "sell"
  | [], _, _, ho => Or.inl ho
  | d :: rest, st, o, ho => by
    have h1 : checkRiskControls p b (d :: rest) st =
        checkRiskControls p b rest (riskStepOne p b st d) := rfl
    rw [h1] at ho
    rcases checkRiskControls_orders p b rest (riskStepOne p b st d) o ho with h | h
    · exact riskStepOne_sells_only p b st d o h
    · exact Or.inr h

theorem executeRebalance_trailing (p : Params) (b : Broker) (datas : List DataFeed)
    (dt : Int) (st : StrategyState) :
    (executeRebalance p b datas dt st).trailing_stops = st.trailing_stops := by
  simp only [executeRebalance, executeTrades_spec]

theorem executeRebalance_pending (p : Params) (b : Broker) (datas : List DataFeed)
    (dt : Int) (st : StrategyState) :
    (executeRebalance p b datas dt st).pending_orders =
      st.pending_orders ++
        (computeTrades b datas
          (calcTargetPositions p (selectTopAssets p (calcMomentumScores p datas)))).map
          tradeOrder := by
  simp only [executeRebalance, executeTrades_spec]

/-! ## C1: cash capping and the ledger identity -/

/-- C1 counterexample (closed): with cash 100, 90 shares of `A` worth
900 (portfolio value 1000), and targets `{B: 0.4, A: 0.4}`, the trade
list submits `buy B 400` *before* the `sell A 50` — a buy whose cost
(400 × price 1) exceeds the available cash (100) and whose quantity is
not capped to `(cash − min_cash_buffer × portfolio_value) / price = 50`:
no cash-affordability capping exists in `_execute_trades`, and
`min_cash_buffer` is never read. -/
theorem c1_overdraw_counterexample :
    computeTrades ⟨100, [("A", ⟨90, 10⟩)]⟩ [⟨"A", [10]⟩, ⟨"B", [1]⟩] [("B", 2/5), ("A", 2/5)] =
      [("buy", "B", 400), ("sell", "A", 50)] ∧
    (100 : ℚ) < 400 * 1 ∧
    (400 : Int) ≠ pyInt ((100 - defaultParams.min_cash_buffer *
      portfolioValue ⟨100, [("A", ⟨90, 10⟩)]⟩ [⟨"A", [10]⟩, ⟨"B", [1]⟩]) / 1) := by
  refine ⟨?_, by norm_num, ?_⟩
  · simp [computeTrades, portfolioValue, getPosition, lookupQ, close0, getDataByName,
      List.filterMap, List.foldl, pyInt, pyAbs]
    try norm_num
    try simp
    try norm_num
  · simp [portfolioValue, getPosition, lookupQ, close0, defaultParams, List.foldl, pyInt]
    try norm_num

/-- C1 amended: the ledger identity `portfolio_value = cash +
Σ shares × close` holds by the broker's valuation, but the trade
simulator never caps a buy to available cash: the submitted buy quantity
is `int(weight_diff × portfolio_value / price)` for *any* cash level `c`
(here an all-cash portfolio buying `B` at target weight `tw`), computed
without reference to `min_cash_buffer`, which is unused in the source;
overdraw protection is left to the broker's own order rejection. -/
theorem c1_buy_sizing_ignores_cash_buffer (b : Broker) (datas : List DataFeed)
    (c pb tw : ℚ) (htw : 1/100 < tw) (hpos : 0 < pyInt (tw * c / pb)) :
    portfolioValue b datas =
      b.cash + (datas.map (fun d => ((getPosition b d.name).size : ℚ) * close0 d)).sum ∧
    computeTrades ⟨c, []⟩ [⟨"B", [pb]⟩] [("B", tw)] =
      [("buy", "B", pyInt (tw * c / pb))] := by
  constructor
  · exact foldl_add_eq _ datas b.cash
  · have hnn : ¬ tw < 0 := by linarith
    have htw2 : (100 : ℚ)⁻¹ < tw := by rw [inv_eq_one_div]; exact htw
    simp [computeTrades, portfolioValue, getPosition, lookupQ, close0, getDataByName,
      List.filterMap, List.foldl, pyAbs, hnn, htw, htw2, hpos]

/-- Witness for C1's amended theorem at cash 100, price 1, target
weight 2/5. -/
theorem c1_buy_sizing_witness :
    portfolioValue ⟨0, []⟩ [] =
      (Broker.mk 0 []).cash +
        (([] : List DataFeed).map
          (fun d => ((getPosition ⟨0, []⟩ d.name).size : ℚ) * close0 d)).sum ∧
    computeTrades ⟨100, []⟩ [⟨"B", [1]⟩] [("B", 2/5)] =
      [("buy", "B", pyInt (2/5 * 100 / 1))] :=
  c1_buy_sizing_ignores_cash_buffer ⟨0, []⟩ [] 100 1 (2/5) (by norm_num)
    (by norm_num [pyInt])

/-! ## C2: trade records -/

/-- C2 counterexample (closed): a held position of 10 shares of `A`
entered at 100 with the close at 80 breaches the default −10% stop-loss;
the risk controller submits the forced liquidation (one pending sell
order) but appends *nothing* to `trade_history` — no TradeRecord and no
retained reason, contradicting the claim. -/
theorem c2_risk_sell_no_record :
    (checkRiskControls defaultParams ⟨0, [("A", ⟨10, 100⟩)]⟩ [⟨"A", [80]⟩]
        initialState).pending_orders = [⟨"sell", "A", 10⟩] ∧
    (checkRiskControls defaultParams ⟨0, [("A", ⟨10, 100⟩)]⟩ [⟨"A", [80]⟩]
        initialState).trade_history = [] := by
  constructor <;>
    · simp [checkRiskControls, riskStepOne, getPosition, lookupQ, close0, aupdate,
        initialState, defaultParams, List.foldl]
      try simp [lookupQ, aupdate]
      try norm_num [lookupQ, aupdate]

/-- C2 amended: only the rebalance path records trades — each trade
submitted by `_execute_trades` appends exactly one `trade_history` entry
`{date, symbol, action, shares, price}` (no cost field), while a
risk-forced liquidation appends no record at all and its triggering
reason is only logged, not retained in any audit structure. -/
theorem c2_trade_records (p : Params) (b : Broker) (datas : List DataFeed) (dt : Int)
    (targets : List (String × ℚ)) (st : StrategyState) :
    (executeTrades b datas dt targets st).trade_history =
      st.trade_history ++ (computeTrades b datas targets).map (recordOf datas dt) ∧
    (checkRiskControls p b datas st).trade_history = st.trade_history := by
  constructor
  · rw [executeTrades_spec]
  · exact checkRiskControls_history p b datas st

/-! ## C3: risk check ordering per bar -/

/-- C3 counterexample (closed): on a bar with a pending order, `next`
returns right after the snapshot — the held position `A` breaches the
stop-loss (the risk check alone would submit a sell, as the second
conjunct shows) yet `nextBar` leaves the pending orders untouched: the
bar skips the risk check while a position is held. -/
theorem c3_pending_skips_risk :
    (nextBar defaultParams ⟨0, [("A", ⟨10, 100⟩)]⟩ [⟨"A", [80]⟩] 0
        { initialState with pending_orders := [⟨"sell", "X", 1⟩] }).pending_orders =
      [⟨"sell", "X", 1⟩] ∧
    (checkRiskControls defaultParams ⟨0, [("A", ⟨10, 100⟩)]⟩ [⟨"A", [80]⟩]
        { initialState with pending_orders := [⟨"sell", "X", 1⟩] }).pending_orders =
      [⟨"sell", "X", 1⟩, ⟨"sell", "A", 10⟩] := by
  constructor
  · simp [nextBar, snap, initialState, defaultParams]
  · simp [checkRiskControls, riskStepOne, getPosition, lookupQ, close0, aupdate,
      initialState, defaultParams, List.foldl]
    try simp [lookupQ, aupdate]
    try norm_num [lookupQ, aupdate]

/-- C3 amended: on every bar whose pending-order queue is empty, the
risk controller runs before the scheduler — the bar's final trailing
stops are exactly those the risk phase computed (the rebalance never
touches them), and the risk phase's orders form a prefix of the bar's
final order queue, any rebalance orders coming after; a bar with a
non-empty pending queue skips both (shown closed by the
counterexample). -/
theorem c3_risk_before_scheduler (p : Params) (b : Broker) (datas : List DataFeed)
    (dt : Int) (st : StrategyState) (h : st.pending_orders = []) :
    (nextBar p b datas dt st).trailing_stops =
      (checkRiskControls p b datas (snap b datas dt st)).trailing_stops ∧
    ∃ rest : List Order,
      (nextBar p b datas dt st).pending_orders =
        (checkRiskControls p b datas (snap b datas dt st)).pending_orders ++ rest := by
  have hsn : (snap b datas dt st).pending_orders = [] := h
  simp only [nextBar]
  rw [if_pos hsn]
  by_cases hr : shouldRebalance p
      (checkRiskControls p b datas (snap b datas dt st)).last_rebalance_date dt
  · rw [if_pos hr]
    exact ⟨executeRebalance_trailing p b datas dt _,
      ⟨_, executeRebalance_pending p b datas dt _⟩⟩
  · rw [if_neg hr]
    exact ⟨rfl, ⟨[], by simp⟩⟩

/-- Witness for C3's amended theorem on a fresh state. -/
theorem c3_risk_before_scheduler_witness :
    (nextBar defaultParams ⟨0, []⟩ [] 0 initialState).trailing_stops =
      (checkRiskControls defaultParams ⟨0, []⟩ [] (snap ⟨0, []⟩ [] 0 initialState)).trailing_stops ∧
    ∃ rest : List Order,
      (nextBar defaultParams ⟨0, []⟩ [] 0 initialState).pending_orders =
        (checkRiskControls defaultParams ⟨0, []⟩ [] (snap ⟨0, []⟩ [] 0 initialState)).pending_orders
          ++ rest :=
  c3_risk_before_scheduler defaultParams ⟨0, []⟩ [] 0 initialState rfl

/-! ## C4: state after a forced liquidation -/

/-- C4 counterexample (closed): `A` was bought back at 100 after an
earlier liquidation near its peak 120 (`trailing_stops` still maps `A`
to 120).  The risk controller fires the trailing stop on the *stale*
peak (100/120 − 1 ≤ −5%) — submitting a forced sell — and afterwards
`trailing_stops` still holds `("A", 120)`: the high-water mark is never
cleared, so a re-entry starts from the stale pre-liquidation peak, not a
fresh one. -/
theorem c4_stale_high_water_mark :
    (checkRiskControls defaultParams ⟨0, [("A", ⟨10, 100⟩)]⟩ [⟨"A", [100]⟩]
        { initialState with trailing_stops := [("A", 120)] }).pending_orders =
      [⟨"sell", "A", 10⟩] ∧
    (checkRiskControls defaultParams ⟨0, [("A", ⟨10, 100⟩)]⟩ [⟨"A", [100]⟩]
        { initialState with trailing_stops := [("A", 120)] }).trailing_stops =
      [("A", 120)] := by
  constructor <;>
    · simp [checkRiskControls, riskStepOne, getPosition, lookupQ, close0, aupdate,
        initialState, defaultParams, List.foldl]
      try simp [lookupQ, aupdate]
      try norm_num [lookupQ, aupdate]

/-- C4 amended: after a forced liquidation the proceeds become cash and
the risk path never redeploys them (it only ever submits sells —
re-entry happens only through a later scheduled rebalance), but the
symbol's trailing-stop high-water mark is *not* cleared: every symbol
tracked in `trailing_stops` before the risk check is still tracked
after it, liquidated or not, so a later re-entry reuses the stale
pre-liquidation peak.  (The `entry_price` is broker state and resets
only because the position itself closes.) -/
theorem c4_trailing_never_cleared (p : Params) (b : Broker) (datas : List DataFeed)
    (st : StrategyState) (s : String) (hs : s ∈ st.trailing_stops.map Prod.fst) :
    s ∈ (checkRiskControls p b datas st).trailing_stops.map Prod.fst ∧
    ∀ o ∈ (checkRiskControls p b datas st).pending_orders,
      o ∈ st.pending_orders ∨ o.action = "sell" :=
  ⟨checkRiskControls_trailing_mono p b datas st s hs,
   checkRiskControls_orders p b datas st⟩

/-- Witness for C4's amended theorem on the stale-peak scenario. -/
theorem c4_trailing_never_cleared_witness :
    "A" ∈ (checkRiskControls defaultParams ⟨0, [("A", ⟨10, 100⟩)]⟩ [⟨"A", [100]⟩]
        { initialState with trailing_stops := [("A", 120)] }).trailing_stops.map Prod.fst ∧
    ∀ o ∈ (checkRiskControls defaultParams ⟨0, [("A", ⟨10, 100⟩)]⟩ [⟨"A", [100]⟩]
        { initialState with trailing_stops := [("A", 120)] }).pending_orders,
      o ∈ ({ initialState with trailing_stops := [("A", 120)] } : StrategyState).pending_orders ∨
        o.action = "sell" :=
  c4_trailing_never_cleared defaultParams ⟨0, [("A", ⟨10, 100⟩)]⟩ [⟨"A", [100]⟩]
    { initialState with trailing_stops := [("A", 120)] } "A" (by simp)
